import Mathlib

/-!
Verification of the student-risk classification and clustering pipeline.

The development shallowly embeds the Python modules
`backend/ml_model/predict.py`, `backend/ml_model/train.py`,
`backend/ml_analysis/clustering.py` and
`backend/ml_analysis/analysis_service.py`.

Modelling conventions:
* Python floats are embedded as rationals (`ℚ`).  Every IEEE-754 double is a
  rational number and all comparisons against the literal thresholds
  (50, 35, 1.5, 75, 60, 3) are exact in both worlds, so the embedding is
  faithful for every float input.
* `round(x, 4)` is embedded as `round4` below.  Python rounds half to even
  while Mathlib's `round` rounds half up, but a tie requires `x * 10000` to be
  an exact half-integer, i.e. `x = (2k+1)/20000` in lowest terms; such a
  rational has a factor 5 in its reduced denominator and therefore is not
  representable as a binary float, so ties never arise for float inputs and
  the two rounding functions agree on all inputs the program can produce.
* The fitted scikit-learn estimators (RandomForest, KMeans, silhouette,
  t-SNE) are external library collaborators; the repository's own logic is
  embedded as functions of those collaborators' outputs (a class-probability
  vector, a silhouette-score list, per-cluster feature means).
* Stateful module-level caches are embedded as explicit state passing over
  `Option`-typed slots.
-/

/-- The count of metrics below their soft thresholds, from
`_apply_hard_rules` rule 5 in `backend/ml_model/predict.py`
(`below = sum([attendance < 75, internal_marks < 60, assignment_score < 60,
study_hours < 3])`). -/
def belowCount (attendance internal_marks assignment_score study_hours : ℚ) : ℕ :=
  (if attendance < 75 then 1 else 0)
  + (if internal_marks < 60 then 1 else 0)
  + (if assignment_score < 60 then 1 else 0)
  + (if study_hours < 3 then 1 else 0)

/-- `_apply_hard_rules` from `backend/ml_model/predict.py`: the deterministic
institutional override layer applied to the raw model verdict. -/
def applyHardRules (risk_level : String)
    (attendance internal_marks assignment_score study_hours : ℚ) : String :=
  -- Rule 1: Attendance critically low — bars from exams
  if attendance < 50 then "At Risk"
  -- Rule 2: Internal marks in critical failure zone
  else if internal_marks < 35 then "At Risk"
  -- Rule 3: Assignment score in critical failure zone
  else if assignment_score < 35 then "At Risk"
  -- Rule 4: Negligible study time combined with attendance shortfall
  else if study_hours < 3/2 ∧ attendance < 75 then "At Risk"
  -- Rule 5: Three or more metrics below their threshold simultaneously
  else if 3 ≤ belowCount attendance internal_marks assignment_score study_hours then "At Risk"
  -- Rule 6: Cannot be "Good" while attendance is below the minimum threshold
  else if attendance < 75 ∧ risk_level = "Good" then "Average"
  else risk_level

/-- Ordinal rank of a risk verdict: Good > Average > At Risk. -/
def riskRank : String → ℕ
  | "At Risk" => 0
  | "Average" => 1
  | _ => 2

/-- Claim C1: the override layer evaluates the six rules in order with
first-match-wins — attendance < 50, internal_marks < 35,
assignment_score < 35, (study_hours < 1.5 ∧ attendance < 75), at least 3 of
the four soft thresholds, and the Good→Average downgrade when
attendance < 75 — returning the raw verdict unchanged when no rule fires;
and for input (20, 100, 100, 8) the result is "At Risk" for every raw
verdict. -/
theorem hard_rules_first_match (v : String) (a m s h : ℚ) :
    (a < 50 → applyHardRules v a m s h = "At Risk")
    ∧ (¬ a < 50 → m < 35 → applyHardRules v a m s h = "At Risk")
    ∧ (¬ a < 50 → ¬ m < 35 → s < 35 → applyHardRules v a m s h = "At Risk")
    ∧ (¬ a < 50 → ¬ m < 35 → ¬ s < 35 → h < 3/2 ∧ a < 75 →
        applyHardRules v a m s h = "At Risk")
    ∧ (¬ a < 50 → ¬ m < 35 → ¬ s < 35 → ¬ (h < 3/2 ∧ a < 75) →
        3 ≤ belowCount a m s h → applyHardRules v a m s h = "At Risk")
    ∧ (¬ a < 50 → ¬ m < 35 → ¬ s < 35 → ¬ (h < 3/2 ∧ a < 75) →
        ¬ 3 ≤ belowCount a m s h → a < 75 ∧ v = "Good" →
        applyHardRules v a m s h = "Average")
    ∧ (¬ a < 50 → ¬ m < 35 → ¬ s < 35 → ¬ (h < 3/2 ∧ a < 75) →
        ¬ 3 ≤ belowCount a m s h → ¬ (a < 75 ∧ v = "Good") →
        applyHardRules v a m s h = v)
    ∧ (∀ v' : String, applyHardRules v' 20 100 100 8 = "At Risk") := by
  refine ⟨?_, ?_, ?_, ?_, ?_, ?_, ?_, ?_⟩ <;>
    · intros
      simp only [applyHardRules]
      split_ifs <;> simp_all <;> norm_num at *

/-- Witness for `hard_rules_first_match` at verdict "Good" and input
(20, 100, 100, 8). -/
theorem hard_rules_first_match_witness :
    (20 : ℚ) < 50 ∧ applyHardRules "Good" 20 100 100 8 = "At Risk" :=
  ⟨by norm_num, (hard_rules_first_match "Good" 20 100 100 8).1 (by norm_num)⟩

/-- Claim C3: the override layer is idempotent — applying the rules to an
already-overridden verdict with the same four feature values yields the same
class. -/
theorem hard_rules_idempotent (v : String) (a m s h : ℚ) :
    applyHardRules (applyHardRules v a m s h) a m s h
      = applyHardRules v a m s h := by
  simp only [applyHardRules]
  split_ifs <;> simp_all

/-- Claim C10: the override layer never upgrades a verdict: for every raw
verdict in {Good, Average, At Risk} the result ranks no higher in the
ordinal order Good > Average > At Risk, and it is "At Risk", the raw
verdict unchanged, or "Average" obtained by downgrading "Good". -/
theorem hard_rules_no_upgrade (v : String) (a m s h : ℚ)
    (hv : v = "Good" ∨ v = "Average" ∨ v = "At Risk") :
    riskRank (applyHardRules v a m s h) ≤ riskRank v
    ∧ (applyHardRules v a m s h = "At Risk"
       ∨ applyHardRules v a m s h = v
       ∨ (applyHardRules v a m s h = "Average" ∧ v = "Good")) := by
  rcases hv with hv | hv | hv <;> subst hv <;>
    · simp only [applyHardRules]
      split_ifs <;> simp_all [riskRank]

/-- Witness for `hard_rules_no_upgrade` at verdict "Good" and input
(70, 90, 90, 5). -/
theorem hard_rules_no_upgrade_witness :
    riskRank (applyHardRules "Good" 70 90 90 5) ≤ riskRank "Good"
    ∧ (applyHardRules "Good" 70 90 90 5 = "At Risk"
       ∨ applyHardRules "Good" 70 90 90 5 = "Good"
       ∨ (applyHardRules "Good" 70 90 90 5 = "Average" ∧ "Good" = "Good")) :=
  hard_rules_no_upgrade "Good" 70 90 90 5 (Or.inl rfl)

/-- Maximum of a list of rationals; `np.max` over a nonempty array
(0 as the irrelevant value on the empty list). -/
def listMax : List ℚ → ℚ
  | [] => 0
  | [x] => x
  | x :: y :: t => max x (listMax (y :: t))

/-- First index attaining the maximum of the list: the semantics of
`np.argmax`, which returns the first occurrence of the maximal value. -/
def argmaxIdx : List ℚ → ℕ
  | [] => 0
  | [_] => 0
  | x :: y :: t => if x < listMax (y :: t) then argmaxIdx (y :: t) + 1 else 0

theorem listMax_cons (x y : ℚ) (t : List ℚ) :
    listMax (x :: y :: t) = max x (listMax (y :: t)) := rfl

theorem argmaxIdx_lt_length : ∀ l : List ℚ, l ≠ [] → argmaxIdx l < l.length
  | [], h => absurd rfl h
  | [_], _ => by simp [argmaxIdx]
  | x :: y :: t, _ => by
    simp only [argmaxIdx]
    split_ifs with hx
    · have ih := argmaxIdx_lt_length (y :: t) (by simp)
      simpa using Nat.succ_lt_succ ih
    · simp

theorem getD_argmaxIdx : ∀ l : List ℚ, l ≠ [] → l.getD (argmaxIdx l) 0 = listMax l
  | [], h => absurd rfl h
  | [_], _ => rfl
  | x :: y :: t, _ => by
    simp only [argmaxIdx, listMax_cons]
    split_ifs with hx
    · have ih := getD_argmaxIdx (y :: t) (by simp)
      simpa [max_eq_right (le_of_lt hx)] using ih
    · push_neg at hx
      simp [max_eq_left hx]

theorem getD_lt_of_lt_argmaxIdx :
    ∀ (l : List ℚ) (j : ℕ), j < argmaxIdx l → l.getD j 0 < listMax l
  | [], j, hj => by simp [argmaxIdx] at hj
  | [_], j, hj => by simp [argmaxIdx] at hj
  | x :: y :: t, j, hj => by
    simp only [argmaxIdx] at hj
    by_cases hx : x < listMax (y :: t)
    · rw [if_pos hx] at hj
      rw [listMax_cons, max_eq_right (le_of_lt hx)]
      cases j with
      | zero => simpa using hx
      | succ j' => exact getD_lt_of_lt_argmaxIdx (y :: t) j' (Nat.lt_of_succ_lt_succ hj)
    · rw [if_neg hx] at hj
      exact absurd hj (Nat.not_lt_zero _)

theorem le_listMax : ∀ l : List ℚ, ∀ x ∈ l, x ≤ listMax l
  | [], _, hx => absurd hx (List.not_mem_nil _)
  | [y], x, hx => by
    simp only [List.mem_singleton] at hx
    simp [hx, listMax]
  | y :: z :: t, x, hx => by
    rw [listMax_cons]
    rcases List.mem_cons.mp hx with h | h
    · exact h ▸ le_max_left _ _
    · exact le_trans (le_listMax (z :: t) x h) (le_max_right _ _)

/-- `K_RANGE = list(range(2, 9))` from `backend/ml_analysis/clustering.py`:
the cluster-count sweep k = 2 … 8. -/
def kRange : List ℕ := [2, 3, 4, 5, 6, 7, 8]

/-- Result record of `_compute_validation_metrics` (the fields the claims
concern; inertias and the justification string are carried by the code but
play no part in k-selection). -/
structure ValidationMetrics where
  k_values : List ℕ
  silhouette_scores : List ℚ
  optimal_k : ℕ
  optimal_silhouette : ℚ

/-- `_compute_validation_metrics` from `backend/ml_analysis/clustering.py`.
The KMeans fits and `silhouette_score` calls are external sklearn
collaborators, so the function is embedded over the list of silhouette
scores the sweep records (one per k in `kRange`, in ascending-k order):
`best_idx = np.argmax(sil_scores); optimal_k = K_RANGE[best_idx]`. -/
def computeValidationMetrics (silScores : List ℚ) : ValidationMetrics :=
  let best := argmaxIdx silScores
  { k_values := kRange
    silhouette_scores := silScores
    optimal_k := kRange.getD best 0
    optimal_silhouette := silScores.getD best 0 }

/-- Claim C4: over the sweep k = 2..8 the selected optimal k is in the sweep
range, its silhouette score equals the maximum of all seven scores, and among
several k attaining that maximum the smallest (first in ascending order) is
selected. -/
theorem optimal_k_max_silhouette (silScores : List ℚ)
    (hlen : silScores.length = 7) :
    (computeValidationMetrics silScores).optimal_k ∈ kRange
    ∧ (computeValidationMetrics silScores).optimal_silhouette = listMax silScores
    ∧ (∀ x ∈ silScores, x ≤ listMax silScores)
    ∧ (computeValidationMetrics silScores).optimal_k = argmaxIdx silScores + 2
    ∧ (∀ j : ℕ, j < 7 → silScores.getD j 0 = listMax silScores →
        (computeValidationMetrics silScores).optimal_k ≤ j + 2) := by
  have hne : silScores ≠ [] := by
    intro h
    rw [h] at hlen
    simp at hlen
  have harg : argmaxIdx silScores < 7 := by
    have h := argmaxIdx_lt_length silScores hne
    rw [hlen] at h
    exact h
  have hkd : ∀ i : ℕ, i < 7 → kRange.getD i 0 = i + 2 := by
    intro i hi
    interval_cases i <;> rfl
  have hk : (computeValidationMetrics silScores).optimal_k = argmaxIdx silScores + 2 := by
    simpa [computeValidationMetrics] using hkd _ harg
  have hmem : (computeValidationMetrics silScores).optimal_k ∈ kRange := by
    rw [hk]
    simp only [kRange, List.mem_cons, List.not_mem_nil, or_false]
    omega
  have hsil : (computeValidationMetrics silScores).optimal_silhouette
      = listMax silScores := by
    simpa [computeValidationMetrics] using getD_argmaxIdx silScores hne
  refine ⟨hmem, hsil, le_listMax silScores, hk, ?_⟩
  intro j hj7 hjmax
  have hle : argmaxIdx silScores ≤ j := by
    by_contra hcon
    push_neg at hcon
    have hlt := getD_lt_of_lt_argmaxIdx silScores j hcon
    rw [hjmax] at hlt
    exact lt_irrefl _ hlt
  rw [hk]
  omega

/-- Witness for `optimal_k_max_silhouette` on a concrete 7-score sweep whose
maximum 3/10 first occurs at index 1 (k = 3). -/
theorem optimal_k_max_silhouette_witness :
    ([(1:ℚ)/10, 3/10, 3/10, 2/10, 1/10, 1/10, 1/10] : List ℚ).length = 7
    ∧ ((computeValidationMetrics [(1:ℚ)/10, 3/10, 3/10, 2/10, 1/10, 1/10, 1/10]).optimal_k ∈ kRange
    ∧ (computeValidationMetrics [(1:ℚ)/10, 3/10, 3/10, 2/10, 1/10, 1/10, 1/10]).optimal_silhouette
        = listMax [(1:ℚ)/10, 3/10, 3/10, 2/10, 1/10, 1/10, 1/10]
    ∧ (∀ x ∈ [(1:ℚ)/10, 3/10, 3/10, 2/10, 1/10, 1/10, 1/10],
        x ≤ listMax [(1:ℚ)/10, 3/10, 3/10, 2/10, 1/10, 1/10, 1/10])
    ∧ (computeValidationMetrics [(1:ℚ)/10, 3/10, 3/10, 2/10, 1/10, 1/10, 1/10]).optimal_k
        = argmaxIdx [(1:ℚ)/10, 3/10, 3/10, 2/10, 1/10, 1/10, 1/10] + 2
    ∧ (∀ j : ℕ, j < 7 →
        ([(1:ℚ)/10, 3/10, 3/10, 2/10, 1/10, 1/10, 1/10] : List ℚ).getD j 0
          = listMax [(1:ℚ)/10, 3/10, 3/10, 2/10, 1/10, 1/10, 1/10] →
        (computeValidationMetrics [(1:ℚ)/10, 3/10, 3/10, 2/10, 1/10, 1/10, 1/10]).optimal_k
          ≤ j + 2)) :=
  ⟨rfl, optimal_k_max_silhouette _ rfl⟩

/-- Python's `round(x, 4)` on the rational embedding: round `x * 10000` to the
nearest integer and divide back.  (See the header note: on float-representable
inputs no exact tie can occur, so the half-up/half-even difference between
Mathlib's `round` and Python's is vacuous.) -/
def round4 (q : ℚ) : ℚ := ((round (q * 10000) : ℤ) : ℚ) / 10000

/-- The fields of the dict returned by `predict` that the claims concern
(`key_factors` is presentation text and is not involved in any claim). -/
structure PredictResult where
  risk_level : String
  confidence : ℚ
  probabilities : List (String × ℚ)

/-- `le.classes_` after training on a dataset containing all three labels:
LabelEncoder sorts the distinct label strings, giving
`['At Risk', 'Average', 'Good']` (the comment at predict.py line 130). -/
def stdClasses : List String := ["At Risk", "Average", "Good"]

/-- `predict` from `backend/ml_model/predict.py`, lines 115–178.  The fitted
RandomForest and LabelEncoder are external pickled artifacts, so the function
is embedded over their outputs: `classes = list(le.classes_)` and
`proba = clf.predict_proba(X)[0]`.  Mirrors: argmax for the raw verdict, the
per-class `round(p, 4)` probabilities dict (as an association list preserving
class order), the hard-rule override, and the confidence choice of
lines 144–150 including its final `round(confidence, 4)`. -/
def predictFrom (classes : List String) (proba : List ℚ)
    (attendance internal_marks assignment_score study_hours : ℚ) : PredictResult :=
  let pred_idx := argmaxIdx proba
  let ml_risk_level := classes.getD pred_idx ""
  let probabilities := (classes.zip proba).map fun cp => (cp.1, round4 cp.2)
  let risk_level :=
    applyHardRules ml_risk_level attendance internal_marks assignment_score study_hours
  let confidence :=
    if risk_level ≠ ml_risk_level ∧ risk_level ∈ classes then
      proba.getD (classes.indexOf risk_level) 0
    else
      proba.getD pred_idx 0
  { risk_level := risk_level
    confidence := round4 confidence
    probabilities := probabilities }

/-- The override layer returns "At Risk", "Average", or the input verdict. -/
theorem applyHardRules_cases (v : String) (a m s h : ℚ) :
    applyHardRules v a m s h = "At Risk"
    ∨ applyHardRules v a m s h = "Average"
    ∨ applyHardRules v a m s h = v := by
  simp only [applyHardRules]
  split_ifs <;> simp

/-- Claim C2: the returned confidence is the raw model's (rounded)
probability mass on the final, post-override class — the pair
(risk_level, confidence) always occurs in the returned probabilities table;
and on input (70, 90, 90, 5) with distribution (0.1, 0.2, 0.7) whose argmax
verdict is "Good", the final class is "Average" and the confidence is the
model's mass 0.2 on "Average", not the 0.7 on "Good". -/
theorem confidence_matches_final_class (p0 p1 p2 a m s h : ℚ) :
    (((predictFrom stdClasses [p0, p1, p2] a m s h).risk_level,
      (predictFrom stdClasses [p0, p1, p2] a m s h).confidence)
        ∈ (predictFrom stdClasses [p0, p1, p2] a m s h).probabilities)
    ∧ stdClasses.getD (argmaxIdx [(1:ℚ)/10, 2/10, 7/10]) "" = "Good"
    ∧ (predictFrom stdClasses [(1:ℚ)/10, 2/10, 7/10] 70 90 90 5).risk_level = "Average"
    ∧ (predictFrom stdClasses [(1:ℚ)/10, 2/10, 7/10] 70 90 90 5).confidence = round4 (2/10)
    ∧ (predictFrom stdClasses [(1:ℚ)/10, 2/10, 7/10] 70 90 90 5).confidence ≠ round4 (7/10) := by
  have idxAtRisk : List.indexOf "At Risk" ["At Risk", "Average", "Good"] = 0 := rfl
  have idxAverage : List.indexOf "Average" ["At Risk", "Average", "Good"] = 1 := rfl
  have idxGood : List.indexOf "Good" ["At Risk", "Average", "Good"] = 2 := rfl
  refine ⟨?_, ?_, ?_, ?_, ?_⟩
  · have hne : ([p0, p1, p2] : List ℚ) ≠ [] := by simp
    have hi := argmaxIdx_lt_length [p0, p1, p2] hne
    simp only [List.length_cons, List.length_nil] at hi
    have h3 : argmaxIdx [p0, p1, p2] = 0 ∨ argmaxIdx [p0, p1, p2] = 1
        ∨ argmaxIdx [p0, p1, p2] = 2 := by omega
    simp only [predictFrom, stdClasses]
    rcases h3 with hidx | hidx | hidx <;> rw [hidx] <;>
      simp only [List.getD_cons_zero, List.getD_cons_succ]
    · rcases applyHardRules_cases "At Risk" a m s h with hr | hr | hr <;> rw [hr] <;>
        simp +decide [List.zip_cons_cons, idxAtRisk, idxAverage, idxGood]
    · rcases applyHardRules_cases "Average" a m s h with hr | hr | hr <;> rw [hr] <;>
        simp +decide [List.zip_cons_cons, idxAtRisk, idxAverage, idxGood]
    · rcases applyHardRules_cases "Good" a m s h with hr | hr | hr <;> rw [hr] <;>
        simp +decide [List.zip_cons_cons, idxAtRisk, idxAverage, idxGood]
  · norm_num [argmaxIdx, listMax, stdClasses]
  · norm_num [predictFrom, argmaxIdx, listMax, stdClasses, applyHardRules, belowCount]
  · norm_num [predictFrom, argmaxIdx, listMax, stdClasses, applyHardRules, belowCount,
      idxAverage]
    rw [if_neg (by decide)]
  · norm_num [predictFrom, argmaxIdx, listMax, stdClasses, applyHardRules, belowCount,
      idxAverage, round4, round_eq]
    rw [if_neg (by decide)]
    norm_num

theorem round4_nonneg (q : ℚ) (hq : 0 ≤ q) : 0 ≤ round4 q := by
  unfold round4
  apply div_nonneg _ (by norm_num)
  have h : (0:ℤ) ≤ round (q * 10000) := by
    rw [round_eq]
    exact Int.le_floor.mpr (by push_cast; linarith)
  exact_mod_cast h

theorem abs_round4_sub (q : ℚ) : |round4 q - q| ≤ 1/20000 := by
  have h := abs_sub_round (q * 10000)
  rw [abs_sub_comm] at h
  have e : round4 q - q = (((round (q * 10000) : ℤ) : ℚ) - q * 10000) / 10000 := by
    unfold round4
    field_simp
    ring
  rw [e, abs_div, abs_of_pos (show (0:ℚ) < 10000 by norm_num)]
  rw [div_le_iff₀ (show (0:ℚ) < 10000 by norm_num)]
  linarith

/-- The probabilities table returned by `predictFrom` on the standard class
list is the per-class `round(p, 4)` of the raw distribution. -/
theorem predictFrom_probabilities (p0 p1 p2 a m s h : ℚ) :
    (predictFrom stdClasses [p0, p1, p2] a m s h).probabilities
      = [("At Risk", round4 p0), ("Average", round4 p1), ("Good", round4 p2)] := by
  simp [predictFrom, stdClasses, List.zip_cons_cons]

/-- Claim C6 (amended): for every raw distribution that is non-negative and
sums to 1, the three returned class probabilities are non-negative and their
sum equals 1.0 within 1.5e-4 — the per-class rounding to 4 decimal places
(`round(float(p), 4)` at predict.py line 133) can move the sum by up to
3 × 5e-5, so the originally claimed 1e-6 tolerance does not hold. -/
theorem probabilities_nonneg_sum_near_one (p0 p1 p2 a m s h : ℚ)
    (h0 : 0 ≤ p0) (h1 : 0 ≤ p1) (h2 : 0 ≤ p2) (hs : p0 + p1 + p2 = 1) :
    (∀ pr ∈ (predictFrom stdClasses [p0, p1, p2] a m s h).probabilities, 0 ≤ pr.2)
    ∧ |(((predictFrom stdClasses [p0, p1, p2] a m s h).probabilities).map Prod.snd).sum - 1|
        ≤ 3/20000 := by
  rw [predictFrom_probabilities]
  constructor
  · intro pr hpr
    simp only [List.mem_cons, List.not_mem_nil, or_false] at hpr
    rcases hpr with hpr | hpr | hpr <;>
      · rw [hpr]
        first
          | exact round4_nonneg p0 h0
          | exact round4_nonneg p1 h1
          | exact round4_nonneg p2 h2
  · have hsum : (List.map Prod.snd
        [("At Risk", round4 p0), ("Average", round4 p1), ("Good", round4 p2)]).sum
        = round4 p0 + round4 p1 + round4 p2 := by
      simp [add_assoc]
    rw [hsum]
    have e : round4 p0 + round4 p1 + round4 p2 - 1
        = (round4 p0 - p0) + (round4 p1 - p1) + (round4 p2 - p2) := by
      rw [← hs]; ring
    rw [e]
    have t0 := abs_round4_sub p0
    have t1 := abs_round4_sub p1
    have t2 := abs_round4_sub p2
    have := abs_add_three (round4 p0 - p0) (round4 p1 - p1) (round4 p2 - p2)
    linarith

/-- Witness for `probabilities_nonneg_sum_near_one` at the uniform
distribution and input (80, 80, 80, 5). -/
theorem probabilities_nonneg_sum_near_one_witness :
    ((0:ℚ) ≤ 1/3 ∧ (0:ℚ) ≤ 1/3 ∧ (0:ℚ) ≤ 1/3 ∧ (1:ℚ)/3 + 1/3 + 1/3 = 1)
    ∧ ((∀ pr ∈ (predictFrom stdClasses [(1:ℚ)/3, 1/3, 1/3] 80 80 80 5).probabilities, 0 ≤ pr.2)
    ∧ |(((predictFrom stdClasses [(1:ℚ)/3, 1/3, 1/3] 80 80 80 5).probabilities).map Prod.snd).sum - 1|
        ≤ 3/20000) :=
  ⟨⟨by norm_num, by norm_num, by norm_num, by norm_num⟩,
    probabilities_nonneg_sum_near_one (1/3) (1/3) (1/3) 80 80 80 5
      (by norm_num) (by norm_num) (by norm_num) (by norm_num)⟩

/-- Counterexample to claim C6 as stated: at the raw distribution
(1/3, 1/3, 1/3) — non-negative, summing exactly to 1 — the returned
probabilities each round to 0.3333, so their sum is 0.9999, which misses
1.0 by 1e-4, far outside the claimed 1e-6 tolerance. -/
theorem probabilities_sum_tolerance_counterexample :
    ((0:ℚ) ≤ 1/3 ∧ (1:ℚ)/3 + 1/3 + 1/3 = 1)
    ∧ (((predictFrom stdClasses [(1:ℚ)/3, 1/3, 1/3] 80 80 80 5).probabilities).map Prod.snd).sum
        = 9999/10000
    ∧ ¬ |(((predictFrom stdClasses [(1:ℚ)/3, 1/3, 1/3] 80 80 80 5).probabilities).map Prod.snd).sum - 1|
        ≤ 1/1000000 := by
  have hr : round4 ((1:ℚ)/3) = 3333/10000 := by
    unfold round4
    norm_num [round_eq]
  rw [predictFrom_probabilities]
  refine ⟨⟨by norm_num, by norm_num⟩, ?_, ?_⟩
  · simp only [List.map_cons, List.map_nil, List.sum_cons, List.sum_nil, hr]
    norm_num
  · simp only [List.map_cons, List.map_nil, List.sum_cons, List.sum_nil, hr]
    norm_num
    rw [abs_of_pos (show (0:ℚ) < 1/10000 by norm_num)]
    norm_num

/-- `_load_payload` from `backend/ml_model/predict.py`, lines 22–33, with the
module-level `_cached_payload` slot and the disk state passed explicitly:
a cached payload is returned as is; otherwise the artifact is loaded from
disk and cached; with neither, the FileNotFoundError ("not ready") is
raised.  `P` abstracts the unpickled payload dict.  Returns the payload and
the updated cache slot. -/
def loadPayload {P : Type} (cached : Option P) (disk : Option P) :
    Except String (P × Option P) :=
  match cached with
  | some p => .ok (p, some p)
  | none =>
    match disk with
    | some p => .ok (p, some p)
    | none => .error "Model not found. Please call POST /api/train first."

/-- `is_model_ready` from `backend/ml_model/predict.py`, line 182: it
consults only the disk state (`os.path.exists(MODEL_PATH)`). -/
def isModelReady {P : Type} (disk : Option P) : Bool :=
  disk.isSome

/-- Claim C7 (amended): prediction fails with the not-ready error iff no
artifact is on disk AND no previously loaded payload is cached; a cached
payload (loaded from disk on an earlier call) is returned even if the
artifact has since disappeared from disk, and with an empty cache the
artifact on disk is loaded and cached. -/
theorem load_payload_error_iff {P : Type} (cached disk : Option P) :
    ((loadPayload cached disk).isOk = false ↔ cached = none ∧ disk = none)
    ∧ (∀ p : P, cached = some p → loadPayload cached disk = .ok (p, some p))
    ∧ (∀ p : P, cached = none → disk = some p →
        loadPayload cached disk = .ok (p, some p))
    ∧ isModelReady disk = disk.isSome := by
  rcases cached with _ | p <;> rcases disk with _ | q <;>
    simp [loadPayload, isModelReady, Except.isOk, Except.toBool]

/-- Counterexample to claim C7 as stated ("fails iff no trained model
artifact exists on disk at the time of the call"): with a payload already
cached from an earlier load and the artifact absent from disk, the claim
predicts a not-ready failure, but `_load_payload` returns the cached payload
successfully. -/
theorem load_payload_cached_counterexample :
    (isModelReady (none : Option ℕ) = false)
    ∧ loadPayload (some 7) (none : Option ℕ) = .ok (7, some 7) :=
  ⟨rfl, rfl⟩

/-- `FEATURE_COLS` from `backend/ml_model/train.py`. -/
def featureCols : List String :=
  ["attendance_percentage", "internal_marks", "assignment_score", "study_hours_per_day"]

/-- `TARGET_COL` from `backend/ml_model/train.py`. -/
def targetCol : String := "performance_label"

/-- The `missing` list of `train_model` (train.py line 62):
`[c for c in FEATURE_COLS + [TARGET_COL] if c not in df.columns]`. -/
def missingCols (columns : List String) : List String :=
  (featureCols ++ [targetCol]).filter fun c => decide (c ∉ columns)

/-- `LabelEncoder().fit_transform` classes (train.py lines 70–71):
scikit-learn's LabelEncoder accepts ANY label strings and sets `classes_`
to the sorted distinct values (`np.unique(y)`); it performs no vocabulary
check whatsoever. -/
def labelEncoderClasses (labels : List String) : List String :=
  labels.dedup.insertionSort (fun a b => a ≤ b)

/-- `train_model` from `backend/ml_model/train.py` up to the point where
external computation begins: the dataset is passed in as its column list and
its label-column values; lines 61–64 validate columns and raise ValueError
before anything else happens (so no artifact is produced); line 71 encodes
the labels.  The subsequent sklearn fitting, metric computation and pickle
dump are external collaborators that raise no DataValidation error.  On
success the encoder's class vocabulary is returned. -/
def trainModel (columns : List String) (labels : List String) :
    Except String (List String) :=
  match missingCols columns with
  | [] => .ok (labelEncoderClasses labels)
  | ms => .error ("Dataset missing columns: " ++ String.intercalate ", " ms)

/-- Claim C8 (amended): training fails fast with the data-validation error —
producing no artifact — iff one of the 4 required feature columns or the
label column is absent from the dataset; label values are NOT validated:
any label vocabulary is accepted and encoded. -/
theorem train_validation_error_iff (columns labels : List String) :
    ((trainModel columns labels).isOk = true
      ↔ ∀ c ∈ featureCols ++ [targetCol], c ∈ columns)
    ∧ ((trainModel columns labels).isOk = false
      ↔ ∃ c ∈ featureCols ++ [targetCol], c ∉ columns) := by
  have hiff : missingCols columns = []
      ↔ ∀ c ∈ featureCols ++ [targetCol], c ∈ columns := by
    rw [missingCols, List.filter_eq_nil_iff]
    simp
  have hex : missingCols columns ≠ []
      ↔ ∃ c ∈ featureCols ++ [targetCol], c ∉ columns := by
    rw [ne_eq, hiff]
    push_neg
    exact Iff.rfl
  have hok : (trainModel columns labels).isOk = true ↔ missingCols columns = [] := by
    unfold trainModel
    rcases hm : missingCols columns with _ | ⟨c, cs⟩ <;>
      simp [Except.isOk, Except.toBool]
  have hok2 : (trainModel columns labels).isOk = false ↔ missingCols columns ≠ [] := by
    rw [ne_eq, ← hok, ← Bool.not_eq_true]
  exact ⟨hok.trans hiff, hok2.trans hex⟩

/-- Counterexample to claim C8 as stated: a dataset with all five required
columns present but a label value "Excellent" outside {Good, Average,
At Risk}.  The claim predicts a data-validation failure; `train_model`
performs no label-vocabulary check and proceeds (LabelEncoder encodes the
out-of-vocabulary label into the artifact). -/
theorem train_label_vocab_counterexample :
    (trainModel
        ["student_id", "student_name", "attendance_percentage", "internal_marks",
          "assignment_score", "study_hours_per_day", "performance_label"]
        ["Good", "Excellent", "At Risk"]).isOk = true
    ∧ ¬ ("Excellent" = "Good" ∨ "Excellent" = "Average" ∨ "Excellent" = "At Risk") := by
  constructor
  · rfl
  · decide

/-- `get_student_clusters` from `backend/ml_analysis/analysis_service.py`,
lines 21–38, with the module-level `_cache` slot passed explicitly.
`runClustering` stands for the result of the external full recomputation
`run_clustering()`.  Returns the result, the updated cache slot, and whether
`run_clustering()` was invoked (a fresh recomputation happened):
`if _cache is None or force_recompute: _cache = run_clustering(); return _cache`. -/
def getStudentClusters {R : Type} (runClustering : R) (forceRecompute : Bool) :
    Option R → R × Option R × Bool
  | none => (runClustering, some runClustering, true)
  | some r =>
    if forceRecompute then (runClustering, some runClustering, true)
    else (r, some r, false)

/-- `invalidate_cache` from `backend/ml_analysis/analysis_service.py`,
lines 41–48: `_cache = None`. -/
def invalidateCache {R : Type} : Option R → Option R :=
  fun _ => none

/-- Claim C9: after `invalidate_cluster_cache()` the cache slot is empty and
the next call recomputes from scratch (returning the freshly computed
result, not a stale one); with a populated cache and force_recompute = false
the cached result is returned without recomputation; force_recompute = true
always recomputes. -/
theorem cluster_cache_spec {R : Type} (fresh : R) (s : Option R) (r : R) :
    invalidateCache s = none
    ∧ getStudentClusters fresh false (invalidateCache s) = (fresh, some fresh, true)
    ∧ getStudentClusters fresh false (some r) = (r, some r, false)
    ∧ (getStudentClusters fresh true s).1 = fresh
    ∧ (getStudentClusters fresh true s).2.2 = true := by
  refine ⟨rfl, rfl, rfl, ?_, ?_⟩ <;>
    rcases s with _ | r' <;> simp [getStudentClusters]

/-- One row of `means = df.groupby("cluster")[FEATURE_COLS].mean()` in
`_interpret_clusters` (clustering.py line 144): a cluster id together with
its four per-cluster feature means (the KMeans fit that produced the
cluster column is an external sklearn collaborator). -/
structure ClusterStats where
  cid : ℕ
  attendance : ℚ
  marks : ℚ
  assignments : ℚ
  study_hours : ℚ

/-- Minimum of a list of rationals (`means.min()` column-wise). -/
def listMin : List ℚ → ℚ
  | [] => 0
  | [x] => x
  | x :: y :: t => min x (listMin (y :: t))

/-- Min-max normalisation of one cluster's feature mean across the clusters:
`(means - means.min()) / (means.max() - means.min() + 1e-9)`
(clustering.py line 145). -/
def normalizeFeat (vals : List ℚ) (v : ℚ) : ℚ :=
  (v - listMin vals) / (listMax vals - listMin vals + 1/1000000000)

/-- Composite score of one cluster: unweighted mean of its four
min-max-normalised feature means (`normed.mean(axis=1)`,
clustering.py line 146). -/
def compositeScore (cs : List ClusterStats) (c : ClusterStats) : ℚ :=
  (normalizeFeat (cs.map ClusterStats.attendance) c.attendance
    + normalizeFeat (cs.map ClusterStats.marks) c.marks
    + normalizeFeat (cs.map ClusterStats.assignments) c.assignments
    + normalizeFeat (cs.map ClusterStats.study_hours) c.study_hours) / 4

/-- `_get_cluster_labels` from clustering.py lines 53–78: interpretation
labels ordered best → worst for n clusters (generic numbered middle tiers
for n ≥ 5). -/
def getClusterLabels (n : ℕ) : List String :=
  if n = 2 then ["High Performing Group", "At-Risk Behaviour Group"]
  else if n = 3 then
    ["High Performing Group", "Average Learners Group", "At-Risk Behaviour Group"]
  else if n = 4 then
    ["High Performing Group", "Above Average Learners Group",
      "Below Average Learners Group", "At-Risk Behaviour Group"]
  else
    ["High Performing Group"]
      ++ (List.range (n - 2)).map (fun i => "Learner Group " ++ toString (i + 1))
      ++ ["At-Risk Behaviour Group"]

/-- `composite.sort_values(ascending=False)` (clustering.py line 146): the
clusters ordered by descending composite score. -/
def sortByCompositeDesc (cs : List ClusterStats) : List ClusterStats :=
  cs.insertionSort fun c c' => compositeScore cs c' ≤ compositeScore cs c

/-- `_interpret_clusters` from clustering.py lines 131–151: the dict
`{cid: labels[rank]}` rendered as the rank-ordered association list pairing
cluster ids (best composite first) with the best→worst label vocabulary. -/
def interpretClusters (cs : List ClusterStats) (n_clusters : ℕ) : List (ℕ × String) :=
  ((sortByCompositeDesc cs).map ClusterStats.cid).zip (getClusterLabels n_clusters)

theorem length_getClusterLabels (n : ℕ) (h2 : 2 ≤ n) :
    (getClusterLabels n).length = n := by
  unfold getClusterLabels
  split_ifs with e2 e3 e4 <;> simp_all [List.length_append] <;> omega

theorem getLast?_getClusterLabels (n : ℕ) (h2 : 2 ≤ n) :
    (getClusterLabels n).getLast? = some "At-Risk Behaviour Group" := by
  unfold getClusterLabels
  split_ifs
  · rfl
  · rfl
  · rfl
  · exact List.getLast?_concat _

theorem zip_getLast? {α β : Type} (a : List α) (b : List β) (x : α) (y : β)
    (hlen : a.length = b.length) (hne : a ≠ [])
    (hx : a.getLast? = some x) (hy : b.getLast? = some y) :
    (a.zip b).getLast? = some (x, y) := by
  have hbl : b ≠ [] := by
    intro h
    rw [h] at hlen
    simp at hlen
    exact hne hlen
  have hza : (a.zip b).length = a.length := by
    rw [List.length_zip, hlen, Nat.min_self]
  have hpos : 0 < a.length := List.length_pos.mpr hne
  have hzne : a.zip b ≠ [] := by
    intro h
    have h2 := congrArg List.length h
    rw [hza] at h2
    simp at h2
    exact hne h2
  have hxe : a[a.length - 1] = x := by
    rw [List.getLast?_eq_getLast_of_ne_nil hne, List.getLast_eq_getElem] at hx
    exact Option.some_inj.mp hx
  have hye : b[b.length - 1] = y := by
    rw [List.getLast?_eq_getLast_of_ne_nil hbl, List.getLast_eq_getElem] at hy
    exact Option.some_inj.mp hy
  rw [List.getLast?_eq_getLast_of_ne_nil hzne, List.getLast_eq_getElem]
  rw [Option.some_inj, List.getElem_zip, Prod.ext_iff]
  constructor
  · simp only [hza]
    exact hxe
  · simp only [hza, hlen]
    exact hye

theorem sortByCompositeDesc_last_min (cs : List ClusterStats)
    (hne : sortByCompositeDesc cs ≠ []) :
    ∀ c ∈ sortByCompositeDesc cs,
      compositeScore cs ((sortByCompositeDesc cs).getLast hne)
        ≤ compositeScore cs c := by
  haveI : IsTotal ClusterStats
      (fun c c' => compositeScore cs c' ≤ compositeScore cs c) :=
    ⟨fun a b => le_total _ _⟩
  haveI : IsTrans ClusterStats
      (fun c c' => compositeScore cs c' ≤ compositeScore cs c) :=
    ⟨fun a b c hab hbc => le_trans hbc hab⟩
  have hs : List.Sorted (fun c c' => compositeScore cs c' ≤ compositeScore cs c)
      (sortByCompositeDesc cs) := List.sorted_insertionSort _ cs
  set l := sortByCompositeDesc cs with hl
  intro c hc
  obtain ⟨i, hi⟩ := List.mem_iff_get.mp hc
  have hpos : 0 < l.length := List.length_pos.mpr hne
  have hlast : l.getLast hne = l.get ⟨l.length - 1, by omega⟩ :=
    List.getLast_eq_get l hne
  rcases Nat.lt_or_ge i.1 (l.length - 1) with hlt | hge
  · have hrel := List.Sorted.rel_get_of_lt hs
      (show i < (⟨l.length - 1, by omega⟩ : Fin l.length) from hlt)
    rw [hlast, ← hi]
    exact hrel
  · have hieq : i = (⟨l.length - 1, by omega⟩ : Fin l.length) :=
      Fin.ext (by
        show i.1 = l.length - 1
        have hi2 : i.1 < l.length := i.2
        omega)
    rw [hlast, ← hi, hieq]

/-- Claim C5: labels are assigned in descending composite-score order from
the fixed best→worst vocabulary — the rank-ordered cluster list is sorted by
descending composite score, every cluster receives a label, the
last-position label is "At-Risk Behaviour Group" for every cluster count
n ≥ 2, and the cluster receiving it has composite score ≤ the composite
score of every cluster in the run. -/
theorem at_risk_label_min_composite (cs : List ClusterStats)
    (h2 : 2 ≤ cs.length) :
    List.Sorted (fun c c' => compositeScore cs c' ≤ compositeScore cs c)
      (sortByCompositeDesc cs)
    ∧ (getClusterLabels cs.length).getLast? = some "At-Risk Behaviour Group"
    ∧ (interpretClusters cs cs.length).length = cs.length
    ∧ ∃ worst : ClusterStats,
        (sortByCompositeDesc cs).getLast? = some worst
        ∧ worst ∈ cs
        ∧ (interpretClusters cs cs.length).getLast?
            = some (worst.cid, "At-Risk Behaviour Group")
        ∧ ∀ c ∈ cs, compositeScore cs worst ≤ compositeScore cs c := by
  haveI : IsTotal ClusterStats
      (fun c c' => compositeScore cs c' ≤ compositeScore cs c) :=
    ⟨fun a b => le_total _ _⟩
  haveI : IsTrans ClusterStats
      (fun c c' => compositeScore cs c' ≤ compositeScore cs c) :=
    ⟨fun a b c hab hbc => le_trans hbc hab⟩
  have hperm : List.Perm (sortByCompositeDesc cs) cs :=
    List.perm_insertionSort _ cs
  have hsorted : List.Sorted (fun c c' => compositeScore cs c' ≤ compositeScore cs c)
      (sortByCompositeDesc cs) := List.sorted_insertionSort _ cs
  have hlen : (sortByCompositeDesc cs).length = cs.length := hperm.length_eq
  have hne : sortByCompositeDesc cs ≠ [] := by
    intro h
    rw [h] at hlen
    simp at hlen
    omega
  have hlabellen := length_getClusterLabels cs.length h2
  have hlabelLast := getLast?_getClusterLabels cs.length h2
  refine ⟨hsorted, hlabelLast, ?_, ?_⟩
  · unfold interpretClusters
    rw [List.length_zip, List.length_map, hlen, hlabellen, Nat.min_self]
  · refine ⟨(sortByCompositeDesc cs).getLast hne,
      List.getLast?_eq_getLast_of_ne_nil hne, ?_, ?_, ?_⟩
    · exact hperm.subset (List.getLast_mem hne)
    · unfold interpretClusters
      apply zip_getLast?
      · rw [List.length_map, hlen, hlabellen]
      · intro h
        rw [List.map_eq_nil_iff] at h
        exact hne h
      · rw [List.getLast?_map, List.getLast?_eq_getLast_of_ne_nil hne]
        rfl
      · exact hlabelLast
    · intro c hc
      exact sortByCompositeDesc_last_min cs hne c (hperm.mem_iff.mpr hc)

/-- A concrete three-cluster run used as witness input. -/
def demoClusters : List ClusterStats :=
  [⟨0, 90, 85, 88, 5⟩, ⟨1, 70, 60, 65, 3⟩, ⟨2, 40, 30, 35, 1⟩]

/-- Witness for `at_risk_label_min_composite` on the concrete three-cluster
run `demoClusters`. -/
theorem at_risk_label_min_composite_witness :
    2 ≤ demoClusters.length
    ∧ (List.Sorted
        (fun c c' => compositeScore demoClusters c' ≤ compositeScore demoClusters c)
        (sortByCompositeDesc demoClusters)
    ∧ (getClusterLabels demoClusters.length).getLast? = some "At-Risk Behaviour Group"
    ∧ (interpretClusters demoClusters demoClusters.length).length = demoClusters.length
    ∧ ∃ worst : ClusterStats,
        (sortByCompositeDesc demoClusters).getLast? = some worst
        ∧ worst ∈ demoClusters
        ∧ (interpretClusters demoClusters demoClusters.length).getLast?
            = some (worst.cid, "At-Risk Behaviour Group")
        ∧ ∀ c ∈ demoClusters,
            compositeScore demoClusters worst ≤ compositeScore demoClusters c) :=
  ⟨by decide, at_risk_label_min_composite demoClusters (by decide)⟩
